import Mathlib

/-!
Shallow embedding of the InsightFinder backend (src/backend/app.py,
src/backend/app_simple.py, src/backend/app_scalable.py).

Python strings are modelled as `List Char`, embedding vectors as lists of
exact rationals (`List ℚ`).  The sentence-transformer model is an external
collaborator and is passed in as a parameter `encode : Str → Vec`.
Similarity scores are real numbers; `Real.sqrt` makes the similarity
functions noncomputable, while all state-manipulating code (ingestion,
storage, key resolution) stays computable.
-/

/-- Python strings, modelled as lists of characters. -/
abbrev Str := List Char

/-- Embedding vectors: exact rational coordinates. -/
abbrev Vec := List ℚ

/-- Coerce a Lean string literal into the `Str` model. -/
def str (s : String) : Str := s.data

/-- `np.dot` on two vectors (componentwise product, summed; numpy requires
equal lengths, `zipWith` truncates to the shorter one). -/
def dot (a b : Vec) : ℚ := (List.zipWith (· * ·) a b).sum

/-- Sum of squares of the coordinates, i.e. the square of the Euclidean
norm computed by `np.linalg.norm`. -/
def normSq (v : Vec) : ℚ := dot v v

/-- `np.linalg.norm`: the Euclidean norm of a vector. -/
noncomputable def vecNorm (v : Vec) : ℝ := Real.sqrt (normSq v)

/-- `cosine_similarity` from `app_scalable.py` (lines 77-86): dot product
divided by the product of the norms, guarded to return `0.0` when either
norm is zero.  `app.py` delegates to `sklearn.metrics.pairwise
.cosine_similarity`, which substitutes 1 for zero norms and therefore
returns the same value on every input, so this single definition serves
both files. -/
noncomputable def cosine_similarity (a b : Vec) : ℝ :=
  let dot_product : ℝ := (dot a b : ℝ)
  let norm_a := vecNorm a
  let norm_b := vecNorm b
  if norm_a = 0 ∨ norm_b = 0 then 0
  else dot_product / (norm_a * norm_b)

/-- A processed file as produced by the upload handlers: the dict
`{'filename', 'content', 'file_path', 'full_path'}` (the last key is only
present in `app_simple.py`; both path fields are set to the filename by
the handlers). -/
structure FileContent where
  filename : Str
  content : Str
  file_path : Str
  full_path : Str
  deriving DecidableEq, Repr

/-- A search hit as returned by the `search` methods: the dict
`{'filename', 'content_snippet', 'similarity_score', 'file_path'}`. -/
structure SearchResult where
  filename : Str
  content_snippet : Str
  similarity_score : ℝ
  file_path : Str

/-- The ordering used by `results.sort(key=lambda x: x['similarity_score'],
reverse=True)`: `a` may precede `b` iff its score is at least `b`'s. -/
def seGE (a b : SearchResult) : Prop := b.similarity_score ≤ a.similarity_score

instance : IsTotal SearchResult seGE :=
  ⟨fun a b => le_total b.similarity_score a.similarity_score⟩

instance : IsTrans SearchResult seGE :=
  ⟨fun _ _ _ h1 h2 => le_trans h2 h1⟩

noncomputable instance : DecidableRel seGE :=
  fun a b => Real.decidableLE b.similarity_score a.similarity_score

/-- Python `l[:k]` for an arbitrary (possibly negative) integer `k`:
a nonnegative `k` keeps the first `k` entries, a negative `k` keeps
everything but the last `|k|` entries. -/
def pySlice (l : List α) (k : Int) : List α :=
  if 0 ≤ k then l.take k.toNat else l.take ((l.length : Int) + k).toNat

/-- `s.replace(a, b)` for single characters. -/
def replaceChar (s : Str) (a b : Char) : Str :=
  s.map (fun c => if c = a then b else c)

/-- Python `str.strip()`: drop leading and trailing whitespace. -/
def pyStrip (s : Str) : Str :=
  ((s.dropWhile Char.isWhitespace).reverse.dropWhile Char.isWhitespace).reverse

/-- Python `s.endswith(t)`. -/
def strEndsWith (s t : Str) : Bool := t == s.drop (s.length - t.length)

/-- The snippet construction shared by all three search variants:
`content[:300].replace('\n', ' ').strip()`, with `"..."` appended iff the
full content is longer than 300 characters. -/
def makeSnippet (content : Str) : Str :=
  let snippet := pyStrip (replaceChar (content.take 300) '\n' ' ')
  if 300 < content.length then snippet ++ str "..." else snippet

/-- Insertion-ordered dictionary update, as for a Python `dict`:
`d[k] = v` overwrites the value in place when the key is present and
appends a new entry otherwise. -/
def upsert (l : List (Str × α)) (k : Str) (v : α) : List (Str × α) :=
  match l with
  | [] => [(k, v)]
  | p :: t => if p.1 = k then (k, v) :: t else p :: upsert t k v

/-- Python `d.get(k)` on an insertion-ordered dictionary. -/
def lookupKey (l : List (Str × α)) (k : Str) : Option α :=
  match l with
  | [] => none
  | p :: t => if p.1 = k then some p.2 else lookupKey t k

namespace AppScalable

/-- `InMemorySearch` state (`app_scalable.py` lines 88-94): two
insertion-ordered maps, filename to embedding and filename to content,
kept in lockstep by `add_files`. -/
structure InMemorySearch where
  file_embeddings : List (Str × Vec)
  file_contents : List (Str × Str)

namespace InMemorySearch

/-- `InMemorySearch.add_files` (lines 96-109): for each incoming file,
embed its content and store embedding and content under its filename. -/
def add_files (encode : Str → Vec) (st : InMemorySearch)
    (file_contents : List FileContent) : InMemorySearch :=
  file_contents.foldl
    (fun st content =>
      let filename := content.filename
      let text := content.content
      let embedding := encode text
      ⟨upsert st.file_embeddings filename embedding,
       upsert st.file_contents filename text⟩)
    st

/-- The result list built by the loop in `InMemorySearch.search` (lines
120-134), in storage order: one `SearchResult` per stored file whose
cosine similarity to the query reaches the `0.1` threshold. -/
noncomputable def searchCandidates (encode : Str → Vec) (st : InMemorySearch)
    (query : Str) : List SearchResult :=
  let query_embedding := encode query
  st.file_embeddings.filterMap (fun p =>
    let similarity := cosine_similarity query_embedding p.2
    if (0.1 : ℝ) ≤ similarity then
      some ⟨p.1, makeSnippet ((lookupKey st.file_contents p.1).getD []),
            similarity, p.1⟩
    else none)

/-- `InMemorySearch.search` (lines 111-138): empty storage short-circuits
to `[]`; otherwise score all stored files, keep those at or above the
threshold, sort by similarity descending (Python's sort is stable), and
return `results[:top_k]`. -/
noncomputable def search (encode : Str → Vec) (st : InMemorySearch)
    (query : Str) (top_k : Int) : List SearchResult :=
  if st.file_embeddings.isEmpty then []
  else pySlice (List.insertionSort seGE (searchCandidates encode st query)) top_k

/-- `InMemorySearch.get_file_content` (lines 140-142). -/
def get_file_content (st : InMemorySearch) (filename : Str) : Option Str :=
  lookupKey st.file_contents filename

end InMemorySearch

/-- A vector-database record (`app_scalable.py` lines 163-170): embedding
plus metadata.  The `uploaded_at` wall-clock timestamp is outside the
model; the `content_length` metadata field is kept. -/
structure VdbEntry where
  embedding : Vec
  content_length : ℕ
  deriving DecidableEq

/-- `VectorDatabaseSearch` state (lines 144-151). -/
structure VectorDatabaseSearch where
  vector_db : List (Str × VdbEntry)
  file_contents : List (Str × Str)

namespace VectorDatabaseSearch

/-- `VectorDatabaseSearch.add_files` (lines 153-173). -/
def add_files (encode : Str → Vec) (st : VectorDatabaseSearch)
    (file_contents : List FileContent) : VectorDatabaseSearch :=
  file_contents.foldl
    (fun st content =>
      let filename := content.filename
      let text := content.content
      let embedding := encode text
      ⟨upsert st.vector_db filename ⟨embedding, text.length⟩,
       upsert st.file_contents filename text⟩)
    st

/-- The result list built by the loop in `VectorDatabaseSearch.search`
(lines 184-198), in storage order. -/
noncomputable def searchCandidates (encode : Str → Vec)
    (st : VectorDatabaseSearch) (query : Str) : List SearchResult :=
  let query_embedding := encode query
  st.vector_db.filterMap (fun p =>
    let similarity := cosine_similarity query_embedding p.2.embedding
    if (0.1 : ℝ) ≤ similarity then
      some ⟨p.1, makeSnippet ((lookupKey st.file_contents p.1).getD []),
            similarity, p.1⟩
    else none)

/-- `VectorDatabaseSearch.search` (lines 175-202): same pipeline as the
in-memory variant, over the vector-db map. -/
noncomputable def search (encode : Str → Vec) (st : VectorDatabaseSearch)
    (query : Str) (top_k : Int) : List SearchResult :=
  if st.vector_db.isEmpty then []
  else pySlice (List.insertionSort seGE (searchCandidates encode st query)) top_k

/-- `VectorDatabaseSearch.get_file_content` (lines 204-206). -/
def get_file_content (st : VectorDatabaseSearch) (filename : Str) : Option Str :=
  lookupKey st.file_contents filename

end VectorDatabaseSearch

/-- `IN_MEMORY_THRESHOLD` (`app_scalable.py` line 33). -/
def IN_MEMORY_THRESHOLD : ℕ := 100

/-- `ScalableSearchEngine` state (lines 208-216).  `current_mode` is the
Python string `"in_memory"` or `"vector_db"`. -/
structure ScalableSearchEngine where
  in_memory_search : InMemorySearch
  vector_db_search : VectorDatabaseSearch
  current_mode : Str
  file_count : ℕ

namespace ScalableSearchEngine

/-- The state built by `ScalableSearchEngine.__init__` (lines 211-216). -/
def init : ScalableSearchEngine :=
  ⟨⟨[], []⟩, ⟨[], []⟩, str "in_memory", 0⟩

/-- `ScalableSearchEngine.add_files` (lines 218-236): bump `file_count` by
the batch size first, then route the whole batch to the in-memory backend
when the new count is within the threshold and the `VECTOR_DB_ENABLED`
flag (`vdbEnabled`, an environment variable in the source) is unset, and
to the vector-db backend otherwise. -/
def add_files (vdbEnabled : Bool) (encode : Str → Vec)
    (e : ScalableSearchEngine) (file_contents : List FileContent) :
    ScalableSearchEngine :=
  let file_count := e.file_count + file_contents.length
  if file_count ≤ IN_MEMORY_THRESHOLD ∧ vdbEnabled = false then
    { e with
      file_count := file_count
      current_mode := str "in_memory"
      in_memory_search := e.in_memory_search.add_files encode file_contents }
  else
    { e with
      file_count := file_count
      current_mode := str "vector_db"
      vector_db_search := e.vector_db_search.add_files encode file_contents }

/-- `ScalableSearchEngine.search` (lines 238-243): delegate to whichever
backend is currently active. -/
noncomputable def search (encode : Str → Vec) (e : ScalableSearchEngine)
    (query : Str) (top_k : Int) : List SearchResult :=
  if e.current_mode == str "in_memory" then
    e.in_memory_search.search encode query top_k
  else
    e.vector_db_search.search encode query top_k

/-- `ScalableSearchEngine.get_file_content` (lines 245-250). -/
def get_file_content (e : ScalableSearchEngine) (filename : Str) : Option Str :=
  if e.current_mode == str "in_memory" then
    e.in_memory_search.get_file_content filename
  else
    e.vector_db_search.get_file_content filename

end ScalableSearchEngine

/-- A run of the engine from its initial state over a sequence of `add`
calls, with `VECTOR_DB_ENABLED` unset (its default). -/
def runEngine (encode : Str → Vec) (batches : List (List FileContent)) :
    ScalableSearchEngine :=
  batches.foldl (fun e docs => e.add_files false encode docs)
    ScalableSearchEngine.init

end AppScalable

namespace App

/-- `SemanticSearch` from `app.py` (lines 77-131) is stateless: `search`
receives the processed files of the request.  Lines 112-131 build one
result per file — there is no minimum-score threshold in this variant —
then sort by similarity descending and return `results[:top_k]`.
`app.py` embeds query and documents in one batch and scores with
sklearn's `cosine_similarity`, which agrees with the guarded
`cosine_similarity` above on every input. -/
noncomputable def SemanticSearch.search (encode : Str → Vec) (query : Str)
    (file_contents : List FileContent) (top_k : Int) : List SearchResult :=
  if file_contents.isEmpty then []
  else
    let query_embedding := encode query
    let results := file_contents.map (fun content =>
      SearchResult.mk content.filename (makeSnippet content.content)
        (cosine_similarity query_embedding (encode content.content))
        content.file_path)
    pySlice (List.insertionSort seGE results) top_k

end App

namespace AppSimple

/-- `SemanticSearch.cosine_similarity` from `app_simple.py` (lines
170-179): each vector is divided by its own norm, with no zero-norm
guard, then the normalized vectors are dotted.  Dividing by a zero norm
is undefined (IEEE floats produce NaN); that failure case is modelled as
`none`, and the well-defined case as `some (dot / (‖a‖·‖b‖))`, the exact
value of the normalize-then-dot computation. -/
noncomputable def SemanticSearch.cosine_similarity (a b : Vec) : Option ℝ :=
  if vecNorm a = 0 ∨ vecNorm b = 0 then none
  else some ((dot a b : ℝ) / (vecNorm a * vecNorm b))

/-- `SemanticSearch` state from `app_simple.py` (lines 120-133):
`add_files` replaces the indexed corpus with the given batch and embeds
every content; the embeddings tensor is determined by the contents, so
the state is the file list. -/
structure SemanticSearch where
  file_contents : List FileContent

/-- The result list built by the loop in `app_simple.py` lines 150-163,
in corpus order: files whose similarity reaches the `0.1` threshold.  A
NaN similarity (zero-norm vector, modelled as `none`) fails the
`similarity >= 0.1` comparison and is skipped. -/
noncomputable def SemanticSearch.searchCandidates (encode : Str → Vec)
    (st : SemanticSearch) (query : Str) : List SearchResult :=
  let query_embedding := encode query
  st.file_contents.filterMap (fun content =>
    match SemanticSearch.cosine_similarity query_embedding
        (encode content.content) with
    | none => none
    | some similarity =>
      if (0.1 : ℝ) ≤ similarity then
        some ⟨content.filename, makeSnippet content.content, similarity,
              content.file_path⟩
      else none)

/-- `SemanticSearch.search` from `app_simple.py` (lines 135-168):
threshold filter, stable sort by similarity descending, `results[:top_k]`. -/
noncomputable def SemanticSearch.search (encode : Str → Vec)
    (st : SemanticSearch) (query : Str) (top_k : Int) : List SearchResult :=
  if st.file_contents.isEmpty then []
  else pySlice (List.insertionSort seGE (SemanticSearch.searchCandidates encode st query)) top_k

/-- Uppercase hex digit of a value below 16, as used by
`urllib.parse.quote`. -/
def hexDigit (n : ℕ) : Char :=
  if n < 10 then Char.ofNat (48 + n) else Char.ofNat (55 + n)

/-- Numeric value of a hex digit, as accepted by `urllib.parse.unquote`. -/
def hexVal (c : Char) : Option ℕ :=
  if '0' ≤ c ∧ c ≤ '9' then some (c.toNat - 48)
  else if 'A' ≤ c ∧ c ≤ 'F' then some (c.toNat - 55)
  else if 'a' ≤ c ∧ c ≤ 'f' then some (c.toNat - 87)
  else none

/-- `urllib.parse.quote` with its default `safe='/'`: alphanumerics,
`_.-~` and `/` pass through, everything else becomes `%XX`.  Modelled on
code points; the Python original percent-encodes UTF-8 bytes, which
agrees on ASCII input. -/
def quote (s : Str) : Str :=
  (s.map (fun c =>
    if c.isAlphanum ∨ c ∈ ['_', '.', '-', '~', '/'] then [c]
    else ['%', hexDigit (c.toNat / 16 % 16), hexDigit (c.toNat % 16)])).flatten

/-- One inter-`%` piece of `urllib.parse.unquote`: decode a leading `XX`
hex escape, or restore the `%` verbatim when the escape is malformed. -/
def unquotePiece (piece : Str) : Str :=
  match piece with
  | h1 :: h2 :: rest =>
    match hexVal h1, hexVal h2 with
    | some a, some b => Char.ofNat (16 * a + b) :: rest
    | _, _ => '%' :: piece
  | _ => '%' :: piece

/-- `urllib.parse.unquote`, following CPython's own algorithm: split on
`%` and decode the escape at the head of each piece.  Modelled on code
points; agrees with the Python original on ASCII input. -/
def unquote (s : Str) : Str :=
  match s.splitOn '%' with
  | [] => []
  | first :: pieces => first ++ (pieces.map unquotePiece).flatten

/-- `os.path.basename` on a POSIX path: everything after the last `/`. -/
def basename (s : Str) : Str := (s.splitOn '/').getLastD []

/-- The storage registration performed for each processed file in
`search_files` (`app_simple.py` lines 210-229): the file is stored in
`uploaded_files_storage` under its original filename, the
spaces-to-underscores form, its `full_path`, the percent-encoded form,
and its basename, in that order. -/
def registerFile (storage : List (Str × FileContent)) (pf : FileContent) :
    List (Str × FileContent) :=
  let original_filename := pf.filename
  let normalized_filename := replaceChar original_filename ' ' '_'
  let s1 := upsert storage original_filename pf
  let s2 := upsert s1 normalized_filename pf
  let s3 := upsert s2 pf.full_path pf
  let s4 := upsert s3 (quote original_filename) pf
  upsert s4 (basename original_filename) pf

/-- `get_file_content` from `app_simple.py` (lines 258-315), the
multi-key resolver: URL-decode the requested name, then try, in order,
the exact decoded name, the raw (still encoded) name, spaces replaced by
underscores, underscores replaced by spaces, the basename, and finally
the first stored key (in insertion order) that is a suffix of the decoded
name or of which the decoded name is a suffix.  `none` models the 404. -/
def get_file_content (storage : List (Str × FileContent)) (filename : Str) :
    Option FileContent :=
  let decoded_filename := unquote filename
  lookupKey storage decoded_filename <|>
  lookupKey storage filename <|>
  lookupKey storage (replaceChar decoded_filename ' ' '_') <|>
  lookupKey storage (replaceChar decoded_filename '_' ' ') <|>
  lookupKey storage (basename decoded_filename) <|>
  (storage.find? (fun p =>
    decoded_filename.isSuffixOf p.1 || p.1.isSuffixOf decoded_filename)).map (·.2)

end AppSimple

/-- An embedding sending the query `"q"` and any document text to
orthogonal unit vectors. -/
def encodeOrth : Str → Vec := fun s => if s = str "q" then [1, 0] else [0, 1]

/-- A post-transition engine: the in-memory backend still holds the
document `"a"` that was ingested before the switch, the vector-db backend
is empty and active. -/
def engineW : AppScalable.ScalableSearchEngine :=
  ⟨⟨[(str "a", [1])], [(str "a", str "x")]⟩, ⟨[], []⟩, str "vector_db", 101⟩

/-- A concrete two-document in-memory store whose embeddings coincide
with the query embedding (both documents score 1). -/
def stC7 : AppScalable.InMemorySearch :=
  ⟨[(str "a", [1]), (str "b", [1])], [(str "a", str "x"), (str "b", str "y")]⟩

example : AppSimple.quote (str "My File.txt") = str "My%20File.txt" := by decide
example : AppSimple.unquote (str "My%20File.txt") = str "My File.txt" := by decide
example : AppSimple.basename (str "folder/My File.txt") = str "My File.txt" := by
  decide

/-! ### Dictionary lemmas -/

/-- Updating the same key twice keeps only the last value (Python dict
assignment is last-write-wins and keeps the original position). -/
theorem upsert_upsert (k : Str) (v1 v2 : α) :
    ∀ l : List (Str × α), upsert (upsert l k v1) k v2 = upsert l k v2
  | [] => by simp [upsert]
  | p :: t => by
    by_cases h : p.1 = k
    · simp [upsert, h]
    · simp [upsert, h, upsert_upsert k v1 v2 t]

/-- After `d[k] = v`, looking up `k` yields `v`. -/
theorem lookupKey_upsert (k : Str) (v : α) :
    ∀ l : List (Str × α), lookupKey (upsert l k v) k = some v
  | [] => by simp [upsert, lookupKey]
  | p :: t => by
    by_cases h : p.1 = k
    · simp [upsert, h, lookupKey]
    · simp [upsert, h, lookupKey, lookupKey_upsert k v t]

/-! ### Engine routing lemmas -/

namespace AppScalable

/-- One `add_files` call bumps the count by the batch size and routes by
comparing the new count with the threshold. -/
theorem add_files_spec (vdbE : Bool) (encode : Str → Vec)
    (e : ScalableSearchEngine) (docs : List FileContent) :
    (e.add_files vdbE encode docs).file_count = e.file_count + docs.length ∧
    ((e.add_files vdbE encode docs).current_mode =
      if e.file_count + docs.length ≤ 100 ∧ vdbE = false then str "in_memory"
      else str "vector_db") := by
  simp only [ScalableSearchEngine.add_files, IN_MEMORY_THRESHOLD]
  by_cases h : e.file_count + docs.length ≤ 100 ∧ vdbE = false
  · rw [if_pos h, if_pos h]; exact ⟨rfl, rfl⟩
  · rw [if_neg h, if_neg h]; exact ⟨rfl, rfl⟩

theorem mode_iff_of_eq (m : Str) (n : ℕ)
    (hm : m = if n ≤ 100 ∧ (false : Bool) = false then str "in_memory"
      else str "vector_db") :
    (m = str "in_memory" ↔ n ≤ 100) ∧ (m = str "vector_db" ↔ 100 < n) := by
  by_cases h : n ≤ 100
  · rw [hm, if_pos ⟨h, rfl⟩]
    refine ⟨⟨fun _ => h, fun _ => rfl⟩, ⟨fun hc => absurd hc (by decide), ?_⟩⟩
    intro hc; omega
  · rw [hm, if_neg (by simp [h])]
    refine ⟨⟨fun hc => absurd hc (by decide), fun hc => absurd hc h⟩,
      ⟨fun _ => by omega, fun _ => rfl⟩⟩

theorem foldl_add_files_count (vdbE : Bool) (encode : Str → Vec) :
    ∀ (bs : List (List FileContent)) (e : ScalableSearchEngine),
    (bs.foldl (fun e docs => e.add_files vdbE encode docs) e).file_count
      = e.file_count + (bs.map List.length).sum
  | [], e => by simp
  | b :: bs, e => by
    simp only [List.foldl_cons, List.map_cons, List.sum_cons]
    rw [foldl_add_files_count vdbE encode bs, (add_files_spec vdbE encode e b).1]
    ring

theorem foldl_add_files_mode (encode : Str → Vec) :
    ∀ (bs : List (List FileContent)) (e : ScalableSearchEngine),
    (e.current_mode = str "in_memory" ↔ e.file_count ≤ 100) →
    (e.current_mode = str "vector_db" ↔ 100 < e.file_count) →
    ((bs.foldl (fun e docs => e.add_files false encode docs) e).current_mode
        = str "in_memory" ↔
      (bs.foldl (fun e docs => e.add_files false encode docs) e).file_count ≤ 100) ∧
    ((bs.foldl (fun e docs => e.add_files false encode docs) e).current_mode
        = str "vector_db" ↔
      100 < (bs.foldl (fun e docs => e.add_files false encode docs) e).file_count)
  | [], e, h1, h2 => ⟨h1, h2⟩
  | b :: bs, e, _, _ => by
    simp only [List.foldl_cons]
    have hspec := add_files_spec false encode e b
    refine foldl_add_files_mode encode bs _ ?_ ?_
    · rw [hspec.1]; exact (mode_iff_of_eq _ _ hspec.2).1
    · rw [hspec.1]; exact (mode_iff_of_eq _ _ hspec.2).2

end AppScalable

/-! ### Claims settled on the computable part of the model -/

/-- Claim C1: starting from the initial engine state, every `add` first
adds the batch length to `file_count` and then routes once per call; with
the force-indexed flag unset the engine is in `in_memory` mode iff the
post-increment count is at most 100 and in `vector_db` mode iff it
exceeds 100 — hence 100 single-document adds leave the engine in-memory,
a 101st flips it to the indexed backend, and (as the count never
decreases) it never flips back on later adds. -/
theorem C1_threshold_routing (encode : Str → Vec)
    (batches : List (List FileContent)) (d : FileContent) :
    ((AppScalable.runEngine encode batches).file_count
        = (batches.map List.length).sum) ∧
    ((AppScalable.runEngine encode batches).current_mode = str "in_memory" ↔
      (AppScalable.runEngine encode batches).file_count ≤ 100) ∧
    ((AppScalable.runEngine encode batches).current_mode = str "vector_db" ↔
      100 < (AppScalable.runEngine encode batches).file_count) ∧
    (AppScalable.runEngine encode (List.replicate 100 [d])).current_mode
      = str "in_memory" ∧
    (AppScalable.runEngine encode (List.replicate 101 [d])).current_mode
      = str "vector_db" := by
  have hgen : ∀ bs : List (List FileContent),
      ((AppScalable.runEngine encode bs).file_count = (bs.map List.length).sum) ∧
      ((AppScalable.runEngine encode bs).current_mode = str "in_memory" ↔
        (AppScalable.runEngine encode bs).file_count ≤ 100) ∧
      ((AppScalable.runEngine encode bs).current_mode = str "vector_db" ↔
        100 < (AppScalable.runEngine encode bs).file_count) := by
    intro bs
    have hcount := AppScalable.foldl_add_files_count false encode bs
      AppScalable.ScalableSearchEngine.init
    have hmode := AppScalable.foldl_add_files_mode encode bs
      AppScalable.ScalableSearchEngine.init
      (by simp [AppScalable.ScalableSearchEngine.init])
      (by simp [AppScalable.ScalableSearchEngine.init, str])
    exact ⟨by simpa [AppScalable.runEngine,
        AppScalable.ScalableSearchEngine.init] using hcount,
      (by simpa [AppScalable.runEngine] using hmode : _ ∧ _).1,
      (by simpa [AppScalable.runEngine] using hmode : _ ∧ _).2⟩
  refine ⟨(hgen batches).1, (hgen batches).2.1, (hgen batches).2.2, ?_, ?_⟩
  · refine ((hgen (List.replicate 100 [d])).2.1).2 ?_
    rw [(hgen (List.replicate 100 [d])).1]
    simp
  · refine ((hgen (List.replicate 101 [d])).2.2).2 ?_
    rw [(hgen (List.replicate 101 [d])).1]
    simp

/-- Claim C9: re-adding a document with an existing id overwrites the
stored text and vector (last-write-wins): adding `(id, t1)` then
`(id, t2)` to the in-memory backend yields exactly the state obtained by
adding `(id, t2)` alone, a subsequent `get_file_content id` returns `t2`,
and the stored embedding for `id` is `encode t2` — so a later search
scores `id` using only `t2`'s vector, with no trace of `t1`. -/
theorem C9_last_write_wins (encode : Str → Vec)
    (st : AppScalable.InMemorySearch) (id t1 t2 fp1 fu1 fp2 fu2 : Str) :
    ((st.add_files encode [⟨id, t1, fp1, fu1⟩]).add_files encode
        [⟨id, t2, fp2, fu2⟩] = st.add_files encode [⟨id, t2, fp2, fu2⟩]) ∧
    (((st.add_files encode [⟨id, t1, fp1, fu1⟩]).add_files encode
        [⟨id, t2, fp2, fu2⟩]).get_file_content id = some t2) ∧
    (lookupKey ((st.add_files encode [⟨id, t1, fp1, fu1⟩]).add_files encode
        [⟨id, t2, fp2, fu2⟩]).file_embeddings id = some (encode t2)) := by
  simp only [AppScalable.InMemorySearch.add_files, List.foldl_cons,
    List.foldl_nil, AppScalable.InMemorySearch.get_file_content]
  exact ⟨by rw [upsert_upsert, upsert_upsert],
    by rw [upsert_upsert]; exact lookupKey_upsert _ _ _,
    by rw [upsert_upsert]; exact lookupKey_upsert _ _ _⟩

set_option maxRecDepth 20000 in
/-- Claim C10 (implicit): `file_count` counts every document of every add
call, including re-adds of an already stored id, so it can strictly
exceed the number of distinct stored documents; concretely, 101
single-document adds of the *same* id flip the engine to the vector-db
backend with `file_count = 101` even though only one distinct id was ever
stored (each backend holds exactly one entry). -/
theorem C10_count_includes_readds (vdbE : Bool) (encode : Str → Vec)
    (e : AppScalable.ScalableSearchEngine) (docs : List FileContent) :
    ((e.add_files vdbE encode docs).file_count = e.file_count + docs.length) ∧
    ((AppScalable.runEngine (fun _ => [1])
        (List.replicate 101 [⟨str "a", str "x", str "a", str "a"⟩])).file_count
      = 101 ∧
    (AppScalable.runEngine (fun _ => [1])
        (List.replicate 101 [⟨str "a", str "x", str "a", str "a"⟩])).current_mode
      = str "vector_db" ∧
    (AppScalable.runEngine (fun _ => [1])
        (List.replicate 101
          [⟨str "a", str "x", str "a", str "a"⟩])).in_memory_search.file_contents.length
      = 1 ∧
    (AppScalable.runEngine (fun _ => [1])
        (List.replicate 101
          [⟨str "a", str "x", str "a", str "a"⟩])).vector_db_search.vector_db.length
      = 1) := by
  refine ⟨(AppScalable.add_files_spec vdbE encode e docs).1, ?_⟩
  decide

/-- Claim C8: the multi-key resolver tries its strategies in the fixed
order of the source (exact decoded id, raw id, spaces to underscores,
underscores to spaces, basename, then suffix fallback), and for a
document stored under id `"My File.txt"` (any content) the lookups
`"My_File.txt"`, `"My%20File.txt"` and `"folder/My File.txt"` all resolve
to that document. -/
theorem C8_lookup_precedence (cont : Str) :
    (AppSimple.get_file_content
        (AppSimple.registerFile []
          ⟨str "My File.txt", cont, str "My File.txt", str "My File.txt"⟩)
        (str "My_File.txt")
      = some ⟨str "My File.txt", cont, str "My File.txt", str "My File.txt"⟩) ∧
    (AppSimple.get_file_content
        (AppSimple.registerFile []
          ⟨str "My File.txt", cont, str "My File.txt", str "My File.txt"⟩)
        (str "My%20File.txt")
      = some ⟨str "My File.txt", cont, str "My File.txt", str "My File.txt"⟩) ∧
    (AppSimple.get_file_content
        (AppSimple.registerFile []
          ⟨str "My File.txt", cont, str "My File.txt", str "My File.txt"⟩)
        (str "folder/My File.txt")
      = some ⟨str "My File.txt", cont, str "My File.txt", str "My File.txt"⟩) :=
  ⟨rfl, rfl, rfl⟩

/-! ### Vector and similarity lemmas -/

theorem dot_cons (x y : ℚ) (t s : List ℚ) :
    dot (x :: t) (y :: s) = x * y + dot t s := by
  simp [dot]

theorem normSq_nonneg : ∀ v : Vec, 0 ≤ normSq v
  | [] => le_refl 0
  | x :: t => by
    have h := normSq_nonneg t
    unfold normSq at *
    rw [dot_cons]
    exact add_nonneg (mul_self_nonneg x) h

theorem vecNorm_eq_zero_iff (v : Vec) : vecNorm v = 0 ↔ normSq v = 0 := by
  unfold vecNorm
  rw [Real.sqrt_eq_zero (by exact_mod_cast normSq_nonneg v)]
  exact_mod_cast Iff.rfl

/-! ### Ranking pipeline lemmas -/

theorem sorted_insertionSort_seGE (l : List SearchResult) :
    List.Sorted seGE (List.insertionSort seGE l) :=
  List.sorted_insertionSort seGE l

theorem sorted_take {l : List SearchResult} (h : List.Sorted seGE l) (n : ℕ) :
    List.Sorted seGE (l.take n) :=
  List.Pairwise.sublist (List.take_sublist n l) h

/-- Stability of `orderedInsert` for the score ordering: filtering on any
fixed score either puts the inserted element first (all elements passed
over have strictly greater scores) or leaves the filter unchanged. -/
theorem filter_score_orderedInsert (s : ℝ) (a : SearchResult) :
    ∀ l : List SearchResult,
    (List.orderedInsert seGE a l).filter
        (fun r => decide (r.similarity_score = s))
      = if a.similarity_score = s
        then a :: l.filter (fun r => decide (r.similarity_score = s))
        else l.filter (fun r => decide (r.similarity_score = s))
  | [] => by
    by_cases hPa : a.similarity_score = s <;>
      simp [List.orderedInsert, List.filter, hPa]
  | b :: t => by
    by_cases h : seGE a b
    · rw [List.orderedInsert, if_pos h]
      by_cases hPa : a.similarity_score = s <;>
        simp [List.filter_cons, hPa]
    · rw [List.orderedInsert, if_neg h]
      have hlt : a.similarity_score < b.similarity_score := by
        unfold seGE at h; exact lt_of_not_le h
      by_cases hPa : a.similarity_score = s
      · have hPb : ¬ b.similarity_score = s := by
          intro hb; rw [hPa] at hlt; rw [hb] at hlt; exact lt_irrefl s hlt
        rw [if_pos hPa]
        rw [List.filter_cons_of_neg (by simpa using hPb),
          List.filter_cons_of_neg (by simpa using hPb),
          filter_score_orderedInsert s a t, if_pos hPa]
      · rw [if_neg hPa]
        by_cases hPb : b.similarity_score = s
        · rw [List.filter_cons_of_pos (by simpa using hPb),
            List.filter_cons_of_pos (by simpa using hPb),
            filter_score_orderedInsert s a t, if_neg hPa]
        · rw [List.filter_cons_of_neg (by simpa using hPb),
            List.filter_cons_of_neg (by simpa using hPb),
            filter_score_orderedInsert s a t, if_neg hPa]

/-- Stability of the sort used by every `search` variant: for each fixed
score, the sorted list lists the results of that score in exactly their
pre-sort (ingestion) order. -/
theorem filter_score_insertionSort (s : ℝ) :
    ∀ l : List SearchResult,
    (List.insertionSort seGE l).filter
        (fun r => decide (r.similarity_score = s))
      = l.filter (fun r => decide (r.similarity_score = s))
  | [] => rfl
  | a :: t => by
    rw [List.insertionSort, filter_score_orderedInsert s a]
    by_cases hPa : a.similarity_score = s
    · rw [if_pos hPa, filter_score_insertionSort s t,
        List.filter_cons_of_pos (by simpa using hPa)]
    · rw [if_neg hPa, filter_score_insertionSort s t,
        List.filter_cons_of_neg (by simpa using hPa)]

theorem mem_of_mem_pySlice {x : α} {l : List α} {k : Int}
    (h : x ∈ pySlice l k) : x ∈ l := by
  unfold pySlice at h
  split at h <;> exact List.mem_of_mem_take h

theorem pySlice_of_nonneg {l : List α} {k : Int} (hk : 0 ≤ k) :
    pySlice l k = l.take k.toNat := if_pos hk

theorem pySlice_of_neg {l : List α} {k : Int} (hk : k < 0) :
    pySlice l k = l.take ((l.length : Int) + k).toNat :=
  if_neg (by omega)

/-! ### Candidate membership lemmas -/

theorem mem_searchCandidates_inMemory {encode : Str → Vec}
    {st : AppScalable.InMemorySearch} {query : Str} {r : SearchResult}
    (h : r ∈ AppScalable.InMemorySearch.searchCandidates encode st query) :
    (0.1 : ℝ) ≤ r.similarity_score ∧
      r.filename ∈ st.file_embeddings.map Prod.fst := by
  simp only [AppScalable.InMemorySearch.searchCandidates,
    List.mem_filterMap] at h
  obtain ⟨p, hp, hf⟩ := h
  by_cases hc : (0.1 : ℝ) ≤ cosine_similarity (encode query) p.2
  · rw [if_pos hc] at hf
    obtain rfl := Option.some.inj hf
    exact ⟨hc, List.mem_map_of_mem Prod.fst hp⟩
  · rw [if_neg hc] at hf
    cases hf

theorem mem_searchCandidates_vectorDb
    {encode : Str → Vec} {st : AppScalable.VectorDatabaseSearch} {query : Str}
    {r : SearchResult}
    (h : r ∈ AppScalable.VectorDatabaseSearch.searchCandidates encode st query) :
    (0.1 : ℝ) ≤ r.similarity_score ∧
      r.filename ∈ st.vector_db.map Prod.fst := by
  simp only [AppScalable.VectorDatabaseSearch.searchCandidates,
    List.mem_filterMap] at h
  obtain ⟨p, hp, hf⟩ := h
  by_cases hc : (0.1 : ℝ) ≤ cosine_similarity (encode query) p.2.embedding
  · rw [if_pos hc] at hf
    obtain rfl := Option.some.inj hf
    exact ⟨hc, List.mem_map_of_mem Prod.fst hp⟩
  · rw [if_neg hc] at hf
    cases hf

theorem mem_searchCandidates_simple {encode : Str → Vec}
    {st : AppSimple.SemanticSearch} {query : Str} {r : SearchResult}
    (h : r ∈ AppSimple.SemanticSearch.searchCandidates encode st query) :
    (0.1 : ℝ) ≤ r.similarity_score := by
  simp only [AppSimple.SemanticSearch.searchCandidates,
    List.mem_filterMap] at h
  obtain ⟨c, hc, hf⟩ := h
  cases hcos : AppSimple.SemanticSearch.cosine_similarity (encode query)
      (encode c.content) with
  | none => rw [hcos] at hf; cases hf
  | some sim =>
    rw [hcos] at hf
    dsimp only at hf
    by_cases hge : (0.1 : ℝ) ≤ sim
    · rw [if_pos hge] at hf
      obtain rfl := Option.some.inj hf
      exact hge
    · rw [if_neg hge] at hf
      cases hf

theorem mem_ranked {cands : List SearchResult} {k : Int} {r : SearchResult}
    (h : r ∈ pySlice (List.insertionSort seGE cands) k) : r ∈ cands :=
  (List.mem_insertionSort seGE).mp (mem_of_mem_pySlice h)

/-! ### Claim C3 (amended) and its counterexample -/

/-- Claim C3, amended: in the threshold-filtering rankers — the scalable
engine's two backends and `app_simple.py`'s `SemanticSearch` — no returned
result scores below the 0.1 minimum (a hard cutoff).  The claim as stated
also asserted this for `app.py`'s ranker, which applies no threshold; see
the counterexample. -/
theorem C3_min_score_threshold (encode : Str → Vec)
    (st : AppScalable.InMemorySearch) (stv : AppScalable.VectorDatabaseSearch)
    (sts : AppSimple.SemanticSearch) (q : Str) (k : Int) :
    (st.search encode q k).Forall (fun r => (0.1 : ℝ) ≤ r.similarity_score) ∧
    (stv.search encode q k).Forall (fun r => (0.1 : ℝ) ≤ r.similarity_score) ∧
    (sts.search encode q k).Forall (fun r => (0.1 : ℝ) ≤ r.similarity_score) := by
  refine ⟨List.forall_iff_forall_mem.mpr fun r hr => ?_,
    List.forall_iff_forall_mem.mpr fun r hr => ?_,
    List.forall_iff_forall_mem.mpr fun r hr => ?_⟩
  · unfold AppScalable.InMemorySearch.search at hr
    split at hr
    · cases hr
    · exact (mem_searchCandidates_inMemory (mem_ranked hr)).1
  · unfold AppScalable.VectorDatabaseSearch.search at hr
    split at hr
    · cases hr
    · exact (mem_searchCandidates_vectorDb (mem_ranked hr)).1
  · unfold AppSimple.SemanticSearch.search at hr
    split at hr
    · cases hr
    · exact mem_searchCandidates_simple (mem_ranked hr)

/-- Counterexample to claim C3 as stated: `app.py`'s `SemanticSearch.search`
(lines 112-131) has no minimum-score filter, so a document orthogonal to
the query is returned with score `0 < 0.1`. -/
theorem C3_counterexample :
    (App.SemanticSearch.search encodeOrth (str "q")
        [⟨str "d", str "x", str "d", str "d"⟩] 10).map
      (fun r => r.similarity_score) = [0] ∧ (0 : ℝ) < 0.1 := by
  have hdot : dot [(1 : ℚ), 0] [(0 : ℚ), 1] = 0 := by norm_num [dot]
  have hcos : cosine_similarity [(1 : ℚ), 0] [(0 : ℚ), 1] = 0 := by
    unfold cosine_similarity
    dsimp only
    rw [hdot]
    split
    · rfl
    · norm_num
  have hq : encodeOrth (str "q") = [1, 0] := if_pos rfl
  have hx : encodeOrth (str "x") = [0, 1] := if_neg (by decide)
  constructor
  · unfold App.SemanticSearch.search
    rw [if_neg (by decide)]
    simp only [List.map_cons, List.map_nil, hq, hx, hcos]
    rw [show List.insertionSort seGE
        [SearchResult.mk (str "d") (makeSnippet (str "x")) 0 (str "d")]
        = [SearchResult.mk (str "d") (makeSnippet (str "x")) 0 (str "d")] from rfl]
    rw [pySlice_of_nonneg (by decide)]
    simp
  · norm_num

/-! ### Claim C4: ranking order, stability, truncation -/

theorem InMemorySearch_search_eq_take (encode : Str → Vec)
    (st : AppScalable.InMemorySearch) (q : Str) (k : Int) (hk : 0 ≤ k) :
    st.search encode q k
      = (List.insertionSort seGE
          (AppScalable.InMemorySearch.searchCandidates encode st q)).take k.toNat := by
  unfold AppScalable.InMemorySearch.search
  by_cases hemp : st.file_embeddings.isEmpty = true
  · rw [if_pos hemp]
    have he : st.file_embeddings = [] := by
      cases hfe : st.file_embeddings with
      | nil => rfl
      | cons a t => rw [hfe] at hemp; cases hemp
    unfold AppScalable.InMemorySearch.searchCandidates
    rw [he]
    simp
  · rw [if_neg hemp, pySlice_of_nonneg hk]

theorem SemanticSearchSimple_search_eq_take (encode : Str → Vec)
    (sts : AppSimple.SemanticSearch) (q : Str) (k : Int) (hk : 0 ≤ k) :
    sts.search encode q k
      = (List.insertionSort seGE
          (AppSimple.SemanticSearch.searchCandidates encode sts q)).take k.toNat := by
  unfold AppSimple.SemanticSearch.search
  by_cases hemp : sts.file_contents.isEmpty = true
  · rw [if_pos hemp]
    have he : sts.file_contents = [] := by
      cases hfe : sts.file_contents with
      | nil => rfl
      | cons a t => rw [hfe] at hemp; cases hemp
    unfold AppSimple.SemanticSearch.searchCandidates
    rw [he]
    simp
  · rw [if_neg hemp, pySlice_of_nonneg hk]

/-- Claim C4: for nonnegative `topK`, every `search` result list is the
`topK`-truncation of the stable descending sort of the candidate list: it
is sorted by score descending, has at most `topK` entries, and results of
equal score keep their ingestion order (the sort permutes nothing within
a score class).  Shown for the scalable in-memory backend and for
`app_simple.py`'s ranker. -/
theorem C4_ranking_order (encode : Str → Vec) (st : AppScalable.InMemorySearch)
    (sts : AppSimple.SemanticSearch) (q : Str) (k : Int) (s : ℝ) (hk : 0 ≤ k) :
    (st.search encode q k
      = (List.insertionSort seGE
          (AppScalable.InMemorySearch.searchCandidates encode st q)).take k.toNat) ∧
    List.Sorted seGE (st.search encode q k) ∧
    (st.search encode q k).length ≤ k.toNat ∧
    ((List.insertionSort seGE
        (AppScalable.InMemorySearch.searchCandidates encode st q)).filter
          (fun r => decide (r.similarity_score = s))
      = (AppScalable.InMemorySearch.searchCandidates encode st q).filter
          (fun r => decide (r.similarity_score = s))) ∧
    (sts.search encode q k
      = (List.insertionSort seGE
          (AppSimple.SemanticSearch.searchCandidates encode sts q)).take k.toNat) ∧
    List.Sorted seGE (sts.search encode q k) ∧
    (sts.search encode q k).length ≤ k.toNat ∧
    ((List.insertionSort seGE
        (AppSimple.SemanticSearch.searchCandidates encode sts q)).filter
          (fun r => decide (r.similarity_score = s))
      = (AppSimple.SemanticSearch.searchCandidates encode sts q).filter
          (fun r => decide (r.similarity_score = s))) := by
  have h1 := InMemorySearch_search_eq_take encode st q k hk
  have h2 := SemanticSearchSimple_search_eq_take encode sts q k hk
  refine ⟨h1, ?_, ?_, filter_score_insertionSort s _, h2, ?_, ?_,
    filter_score_insertionSort s _⟩
  · rw [h1]; exact sorted_take (sorted_insertionSort_seGE _) _
  · rw [h1, List.length_take]; exact min_le_left _ _
  · rw [h2]; exact sorted_take (sorted_insertionSort_seGE _) _
  · rw [h2, List.length_take]; exact min_le_left _ _

/-- Witness for C4 at a concrete input (`topK = 2`, empty stores, the
zero embedding, score class `0`). -/
theorem C4_ranking_order_witness :
    (0 : Int) ≤ 2 ∧
    (((AppScalable.InMemorySearch.mk [] []).search (fun _ => []) (str "") 2
      = (List.insertionSort seGE
          (AppScalable.InMemorySearch.searchCandidates (fun _ => [])
            (AppScalable.InMemorySearch.mk [] []) (str ""))).take (2 : Int).toNat) ∧
    List.Sorted seGE
      ((AppScalable.InMemorySearch.mk [] []).search (fun _ => []) (str "") 2) ∧
    ((AppScalable.InMemorySearch.mk [] []).search (fun _ => []) (str "") 2).length
      ≤ (2 : Int).toNat ∧
    ((List.insertionSort seGE
        (AppScalable.InMemorySearch.searchCandidates (fun _ => [])
          (AppScalable.InMemorySearch.mk [] []) (str ""))).filter
          (fun r => decide (r.similarity_score = (0 : ℝ)))
      = (AppScalable.InMemorySearch.searchCandidates (fun _ => [])
          (AppScalable.InMemorySearch.mk [] []) (str "")).filter
          (fun r => decide (r.similarity_score = (0 : ℝ)))) ∧
    ((AppSimple.SemanticSearch.mk []).search (fun _ => []) (str "") 2
      = (List.insertionSort seGE
          (AppSimple.SemanticSearch.searchCandidates (fun _ => [])
            (AppSimple.SemanticSearch.mk []) (str ""))).take (2 : Int).toNat) ∧
    List.Sorted seGE
      ((AppSimple.SemanticSearch.mk []).search (fun _ => []) (str "") 2) ∧
    ((AppSimple.SemanticSearch.mk []).search (fun _ => []) (str "") 2).length
      ≤ (2 : Int).toNat ∧
    ((List.insertionSort seGE
        (AppSimple.SemanticSearch.searchCandidates (fun _ => [])
          (AppSimple.SemanticSearch.mk []) (str ""))).filter
          (fun r => decide (r.similarity_score = (0 : ℝ)))
      = (AppSimple.SemanticSearch.searchCandidates (fun _ => [])
          (AppSimple.SemanticSearch.mk []) (str "")).filter
          (fun r => decide (r.similarity_score = (0 : ℝ))))) :=
  ⟨by decide,
    C4_ranking_order (fun _ => []) (AppScalable.InMemorySearch.mk [] [])
      (AppSimple.SemanticSearch.mk []) (str "") 2 0 (by decide)⟩

/-! ### Claim C2: per-call backend isolation, no migration -/

theorem InMemorySearch_search_filename_mem {encode : Str → Vec}
    {st : AppScalable.InMemorySearch} {q : Str} {k : Int} {r : SearchResult}
    (h : r ∈ st.search encode q k) :
    r.filename ∈ st.file_embeddings.map Prod.fst := by
  unfold AppScalable.InMemorySearch.search at h
  split at h
  · cases h
  · exact (mem_searchCandidates_inMemory (mem_ranked h)).2

theorem VectorDatabaseSearch_search_filename_mem {encode : Str → Vec}
    {st : AppScalable.VectorDatabaseSearch} {q : Str} {k : Int} {r : SearchResult}
    (h : r ∈ st.search encode q k) :
    r.filename ∈ st.vector_db.map Prod.fst := by
  unfold AppScalable.VectorDatabaseSearch.search at h
  split at h
  · cases h
  · exact (mem_searchCandidates_vectorDb (mem_ranked h)).2

/-- Claim C2: each `add` call writes its documents only into the backend
its routing decision selects and leaves the other backend untouched;
`search` consults only the active backend, so an id stored only in the
inactive backend (added before a state transition and never re-added)
never appears among the search results. -/
theorem C2_backend_partition (vdbE : Bool) (encode : Str → Vec)
    (e : AppScalable.ScalableSearchEngine) (docs : List FileContent)
    (q id : Str) (k : Int) :
    (e.file_count + docs.length ≤ 100 ∧ vdbE = false →
      (e.add_files vdbE encode docs).vector_db_search = e.vector_db_search ∧
      (e.add_files vdbE encode docs).in_memory_search
        = e.in_memory_search.add_files encode docs) ∧
    (¬(e.file_count + docs.length ≤ 100 ∧ vdbE = false) →
      (e.add_files vdbE encode docs).in_memory_search = e.in_memory_search ∧
      (e.add_files vdbE encode docs).vector_db_search
        = e.vector_db_search.add_files encode docs) ∧
    (e.current_mode = str "in_memory" →
      e.search encode q k = e.in_memory_search.search encode q k) ∧
    (e.current_mode ≠ str "in_memory" →
      e.search encode q k = e.vector_db_search.search encode q k) ∧
    (e.current_mode = str "vector_db" →
      (∀ p ∈ e.vector_db_search.vector_db, p.1 ≠ id) →
      (e.search encode q k).Forall (fun r => r.filename ≠ id)) ∧
    (e.current_mode = str "in_memory" →
      (∀ p ∈ e.in_memory_search.file_embeddings, p.1 ≠ id) →
      (e.search encode q k).Forall (fun r => r.filename ≠ id)) := by
  have hmem : e.current_mode = str "in_memory" →
      e.search encode q k = e.in_memory_search.search encode q k := by
    intro h
    unfold AppScalable.ScalableSearchEngine.search
    rw [if_pos (beq_iff_eq.mpr h)]
  have hvdb : e.current_mode ≠ str "in_memory" →
      e.search encode q k = e.vector_db_search.search encode q k := by
    intro h
    unfold AppScalable.ScalableSearchEngine.search
    rw [if_neg (by simpa using h)]
  refine ⟨?_, ?_, hmem, hvdb, ?_, ?_⟩
  · intro h
    simp only [AppScalable.ScalableSearchEngine.add_files,
      AppScalable.IN_MEMORY_THRESHOLD]
    rw [if_pos h]
    exact ⟨rfl, rfl⟩
  · intro h
    simp only [AppScalable.ScalableSearchEngine.add_files,
      AppScalable.IN_MEMORY_THRESHOLD]
    rw [if_neg h]
    exact ⟨rfl, rfl⟩
  · intro hmode habs
    rw [hvdb (by rw [hmode]; decide)]
    refine List.forall_iff_forall_mem.mpr fun r hr heq => ?_
    obtain ⟨p, hp, hfst⟩ :=
      List.mem_map.mp (VectorDatabaseSearch_search_filename_mem hr)
    exact habs p hp (hfst.trans heq)
  · intro hmode habs
    rw [hmem hmode]
    refine List.forall_iff_forall_mem.mpr fun r hr heq => ?_
    obtain ⟨p, hp, hfst⟩ :=
      List.mem_map.mp (InMemorySearch_search_filename_mem hr)
    exact habs p hp (hfst.trans heq)

/-- Witness for C2 at concrete inputs: a small in-memory-routed `add`
leaves the vector backend untouched, and on `engineW` (vector-db mode,
`"a"` stranded in the in-memory store) no search result carries the
stranded id. -/
theorem C2_backend_partition_witness :
    (AppScalable.ScalableSearchEngine.init.file_count
        + [FileContent.mk (str "a") (str "x") (str "a") (str "a")].length ≤ 100 ∧
      (false = false) ∧
      (AppScalable.ScalableSearchEngine.init.add_files false (fun _ => [1])
          [FileContent.mk (str "a") (str "x") (str "a") (str "a")]).vector_db_search
        = AppScalable.ScalableSearchEngine.init.vector_db_search) ∧
    (engineW.current_mode = str "vector_db" ∧
      (∀ p ∈ engineW.vector_db_search.vector_db, p.1 ≠ str "a") ∧
      (engineW.search (fun _ => [1]) (str "q") 5).Forall
        (fun r => r.filename ≠ str "a")) :=
  ⟨⟨by decide, rfl,
    ((C2_backend_partition false (fun _ => [1])
        AppScalable.ScalableSearchEngine.init
        [FileContent.mk (str "a") (str "x") (str "a") (str "a")]
        (str "q") (str "a") 5).1 ⟨by decide, rfl⟩).1⟩,
   ⟨rfl, by simp [engineW],
    (C2_backend_partition false (fun _ => [1]) engineW []
        (str "q") (str "a") 5).2.2.2.2.1 rfl (by simp [engineW])⟩⟩

/-! ### Claim C5 (amended): the excerpt law -/

theorem strEndsWith_append (x t : Str) : strEndsWith (x ++ t) t = true := by
  unfold strEndsWith
  rw [List.length_append, Nat.add_sub_cancel, List.drop_left]
  exact beq_self_eq_true t

theorem pyStrip_length_le (s : Str) : (pyStrip s).length ≤ s.length := by
  unfold pyStrip
  rw [List.length_reverse]
  calc ((s.dropWhile Char.isWhitespace).reverse.dropWhile
          Char.isWhitespace).length
      ≤ (s.dropWhile Char.isWhitespace).reverse.length :=
        (List.dropWhile_sublist _).length_le
    _ = (s.dropWhile Char.isWhitespace).length := List.length_reverse _
    _ ≤ s.length := (List.dropWhile_sublist _).length_le

/-- Claim C5, amended: the excerpt takes the first 300 characters,
collapses newlines to spaces, strips surrounding whitespace, and appends
`"..."` iff the text is longer than 300 characters; for long texts the
excerpt ends in `"..."` with length at most 303, and for texts of at most
300 characters it equals the text with newlines collapsed *and stripped
of leading/trailing whitespace* (the stated claim omitted the strip; see
the counterexample). -/
theorem C5_excerpt_law (content : Str) :
    (300 < content.length →
      strEndsWith (makeSnippet content) (str "...") = true ∧
      (makeSnippet content).length ≤ 303) ∧
    (content.length ≤ 300 →
      makeSnippet content = pyStrip (replaceChar content '\n' ' ')) := by
  constructor
  · intro h
    unfold makeSnippet
    rw [if_pos h]
    refine ⟨strEndsWith_append _ _, ?_⟩
    rw [List.length_append]
    have h1 : (pyStrip (replaceChar (content.take 300) '\n' ' ')).length ≤ 300 := by
      calc (pyStrip (replaceChar (content.take 300) '\n' ' ')).length
          ≤ (replaceChar (content.take 300) '\n' ' ').length :=
            pyStrip_length_le _
        _ = (content.take 300).length := List.length_map _ _
        _ ≤ 300 := by rw [List.length_take]; exact min_le_left _ _
    have h2 : (str "...").length = 3 := by decide
    omega
  · intro h
    unfold makeSnippet
    rw [if_neg (by omega), List.take_of_length_le h]

/-- Counterexample to claim C5 as stated: for the 3-character text
`" hi"` the code strips the leading space, so the excerpt is `"hi"`,
not the text with newlines collapsed (which would keep the space). -/
theorem C5_counterexample :
    makeSnippet (str " hi") = str "hi" ∧
    makeSnippet (str " hi") ≠ replaceChar (str " hi") '\n' ' ' := by
  exact ⟨by decide, by decide⟩

set_option maxRecDepth 20000 in
/-- Witness for C5 at concrete inputs: a 301-character text gets the
`"..."` suffix within the 303 bound, and `" hi"` becomes its stripped,
newline-collapsed form. -/
theorem C5_excerpt_law_witness :
    (300 < (List.replicate 301 'a').length ∧
      strEndsWith (makeSnippet (List.replicate 301 'a')) (str "...") = true ∧
      (makeSnippet (List.replicate 301 'a')).length ≤ 303) ∧
    ((str " hi").length ≤ 300 ∧
      makeSnippet (str " hi") = pyStrip (replaceChar (str " hi") '\n' ' ')) :=
  ⟨⟨by decide, (C5_excerpt_law (List.replicate 301 'a')).1 (by decide)⟩,
   ⟨by decide, (C5_excerpt_law (str " hi")).2 (by decide)⟩⟩

/-! ### Claim C6 (amended): the zero-norm guard -/

/-- Claim C6, amended: `app_scalable.py`'s `cosine_similarity` returns the
dot product over the product of norms when both norms are nonzero and
exactly `0.0` when either norm is zero, so its division never sees a zero
divisor.  `app_simple.py`'s `SemanticSearch.cosine_similarity`, however,
has no guard: on a zero-norm vector its normalizing division is reached
with a zero divisor (IEEE NaN, modelled as `none`) — the claim as stated
asserted the guard for every ranker variant; see the counterexample. -/
theorem C6_cosine_guard (a b : Vec) :
    (vecNorm a = 0 ∨ vecNorm b = 0 → cosine_similarity a b = 0) ∧
    (vecNorm a ≠ 0 → vecNorm b ≠ 0 →
      cosine_similarity a b = (dot a b : ℝ) / (vecNorm a * vecNorm b) ∧
      vecNorm a * vecNorm b ≠ 0) ∧
    (vecNorm a = 0 ∨ vecNorm b = 0 →
      AppSimple.SemanticSearch.cosine_similarity a b = none) := by
  refine ⟨fun h => ?_, fun ha hb => ?_, fun h => ?_⟩
  · unfold cosine_similarity
    dsimp only
    rw [if_pos h]
  · unfold cosine_similarity
    dsimp only
    rw [if_neg (by rintro (h | h) <;> [exact ha h; exact hb h])]
    exact ⟨rfl, mul_ne_zero ha hb⟩
  · unfold AppSimple.SemanticSearch.cosine_similarity
    rw [if_pos h]

/-- Counterexample to claim C6 as stated: `app_simple.py`'s
`cosine_similarity` does not return `0.0` on a zero vector — it divides
by the zero norm (NaN, modelled as `none`). -/
theorem C6_counterexample :
    AppSimple.SemanticSearch.cosine_similarity [(0 : ℚ)] [(1 : ℚ)] = none ∧
    AppSimple.SemanticSearch.cosine_similarity [(0 : ℚ)] [(1 : ℚ)] ≠ some 0 := by
  have h0 : vecNorm [(0 : ℚ)] = 0 := by
    unfold vecNorm normSq
    rw [show dot [(0 : ℚ)] [(0 : ℚ)] = 0 from by norm_num [dot]]
    simp [Real.sqrt_zero]
  have h : AppSimple.SemanticSearch.cosine_similarity [(0 : ℚ)] [(1 : ℚ)]
      = none := by
    unfold AppSimple.SemanticSearch.cosine_similarity
    rw [if_pos (Or.inl h0)]
  exact ⟨h, by rw [h]; exact fun hc => Option.noConfusion hc⟩

/-- Witness for C6 at concrete inputs: the zero vector triggers the guard
of the scalable variant and the failing division of the simple variant;
the all-ones vector exercises the well-defined branch. -/
theorem C6_cosine_guard_witness :
    ((vecNorm [(0 : ℚ)] = 0 ∨ vecNorm [(1 : ℚ)] = 0) ∧
      cosine_similarity [(0 : ℚ)] [(1 : ℚ)] = 0 ∧
      AppSimple.SemanticSearch.cosine_similarity [(0 : ℚ)] [(1 : ℚ)] = none) ∧
    (vecNorm [(1 : ℚ)] ≠ 0 ∧
      cosine_similarity [(1 : ℚ)] [(1 : ℚ)]
        = (dot [(1 : ℚ)] [(1 : ℚ)] : ℝ) / (vecNorm [(1 : ℚ)] * vecNorm [(1 : ℚ)]) ∧
      vecNorm [(1 : ℚ)] * vecNorm [(1 : ℚ)] ≠ 0) := by
  have h0 : vecNorm [(0 : ℚ)] = 0 := by
    unfold vecNorm normSq
    rw [show dot [(0 : ℚ)] [(0 : ℚ)] = 0 from by norm_num [dot]]
    simp [Real.sqrt_zero]
  have h1 : vecNorm [(1 : ℚ)] = 1 := by
    unfold vecNorm normSq
    rw [show dot [(1 : ℚ)] [(1 : ℚ)] = 1 from by norm_num [dot]]
    simp [Real.sqrt_one]
  have h1ne : vecNorm [(1 : ℚ)] ≠ 0 := by rw [h1]; norm_num
  refine ⟨⟨Or.inl h0, (C6_cosine_guard [(0 : ℚ)] [(1 : ℚ)]).1 (Or.inl h0),
    (C6_cosine_guard [(0 : ℚ)] [(1 : ℚ)]).2.2 (Or.inl h0)⟩,
    h1ne, (C6_cosine_guard [(1 : ℚ)] [(1 : ℚ)]).2.1 h1ne h1ne⟩

/-! ### Claim C7 (corrected): negative `topK` -/

/-- Claim C7, amended: a negative `topK` is *not* rejected — no
`InvalidArgument` exists anywhere in the code.  `results[:top_k]` follows
Python slice semantics: with `top_k < 0` the call returns normally with
the ranked list minus its last `|top_k|` entries. -/
theorem C7_negative_topk (encode : Str → Vec)
    (st : AppScalable.InMemorySearch) (q : Str) (k : Int) (hk : k < 0) :
    st.search encode q k
      = if st.file_embeddings.isEmpty then []
        else (List.insertionSort seGE
            (AppScalable.InMemorySearch.searchCandidates encode st q)).take
          (((List.insertionSort seGE
              (AppScalable.InMemorySearch.searchCandidates encode st q)).length
            : Int) + k).toNat := by
  unfold AppScalable.InMemorySearch.search
  by_cases hemp : st.file_embeddings.isEmpty = true
  · rw [if_pos hemp, if_pos hemp]
  · rw [if_neg hemp, if_neg hemp, pySlice_of_neg hk]

/-- Witness for C7 at a concrete input (`topK = -1` on `stC7`). -/
theorem C7_negative_topk_witness :
    (-1 : Int) < 0 ∧
    stC7.search (fun _ => [1]) (str "q") (-1)
      = if stC7.file_embeddings.isEmpty then []
        else (List.insertionSort seGE
            (AppScalable.InMemorySearch.searchCandidates (fun _ => [1]) stC7
              (str "q"))).take
          (((List.insertionSort seGE
              (AppScalable.InMemorySearch.searchCandidates (fun _ => [1]) stC7
                (str "q"))).length : Int) + (-1)).toNat :=
  ⟨by decide, C7_negative_topk (fun _ => [1]) stC7 (str "q") (-1) (by decide)⟩

/-- Counterexample to claim C7 as stated: with two stored documents both
scoring `1`, `search` with `topK = -1` raises nothing and returns a
result list — of length 1, the sorted results with the last entry
dropped, exactly Python's `results[:-1]`. -/
theorem C7_counterexample :
    (stC7.search (fun _ => [1]) (str "q") (-1)).length = 1 := by
  have hcos : cosine_similarity [(1 : ℚ)] [(1 : ℚ)] = 1 := by
    unfold cosine_similarity vecNorm normSq
    dsimp only
    rw [show dot [(1 : ℚ)] [(1 : ℚ)] = 1 from by norm_num [dot]]
    rw [show ((1 : ℚ) : ℝ) = 1 from by norm_num, Real.sqrt_one]
    rw [if_neg (by norm_num)]
    norm_num
  have hsa : makeSnippet ((lookupKey stC7.file_contents (str "a")).getD [])
      = str "x" := by decide
  have hsb : makeSnippet ((lookupKey stC7.file_contents (str "b")).getD [])
      = str "y" := by decide
  have hcands : AppScalable.InMemorySearch.searchCandidates (fun _ => [1]) stC7
      (str "q")
      = [⟨str "a", str "x", 1, str "a"⟩, ⟨str "b", str "y", 1, str "b"⟩] := by
    unfold AppScalable.InMemorySearch.searchCandidates
    dsimp only
    show List.filterMap _ stC7.file_embeddings = _
    rw [show stC7.file_embeddings = [(str "a", [(1 : ℚ)]), (str "b", [(1 : ℚ)])]
      from rfl]
    rw [List.filterMap_cons, List.filterMap_cons, List.filterMap_nil]
    dsimp only
    rw [hcos, hsa, hsb]
    norm_num
  have hsort : List.insertionSort seGE
      [SearchResult.mk (str "a") (str "x") 1 (str "a"),
       SearchResult.mk (str "b") (str "y") 1 (str "b")]
      = [SearchResult.mk (str "a") (str "x") 1 (str "a"),
         SearchResult.mk (str "b") (str "y") 1 (str "b")] := by
    simp [List.insertionSort, List.orderedInsert, seGE]
  unfold AppScalable.InMemorySearch.search
  rw [if_neg (by decide), hcands, hsort, pySlice_of_neg (by decide)]
  rfl
